import Mathlib

/-!
Verification development for the img-router gateway core.

This file gives a shallow embedding, in Lean 4, of the decision logic of the
img-router repository and proves properties of it:

* string / data-URI helpers and the byte-size accounting of
  `src/utils/security.ts` (`buildDataUri`, `calculateBase64Size`,
  `extractMimeTypeFromDataUri`);
* the size-budgeted compression loop (`compressDataUriToTarget`) and the
  input-image normalizer (`normalizeAndCompressInputImages`);
* the canonical error classifier of `src/core/logger.ts`
  (`identifyErrorType`, `parseErrorMessage`, `FRIENDLY_MESSAGES`);
* the asynchronous task poller of `src/providers/modelscope.ts`
  (`normalizeTaskData`, `extractOutputImages`, the 120-attempt poll loop with
  its invalid-response streak);
* the synchronous Doubao provider result shape (`src/providers/doubao.ts`);
* the bounded attempt loop of `src/handlers/edits.ts`
  (`handleImagesGenerations`, relay vs backend mode).

Network calls, the wall clock and the image codec (the `imagescript` library)
are modelled as explicit environments: a poll script, a download oracle and an
abstract codec.  JavaScript strings are modelled as Lean `String`s and their
operations are re-implemented over the underlying character lists so that every
definition evaluates inside the kernel.  JavaScript numbers that are used as
byte counts are modelled as `Int` (the code only adds, multiplies, floors and
compares them on integral values).
-/

namespace ImgRouter

/-! Character-list primitives used to model JavaScript string operations. -/

/-- Model of `needle` being a prefix of a character list (used for
JavaScript's `String.prototype.startsWith`). -/
def isPrefixCs : List Char → List Char → Bool
  | [], _ => true
  | _ :: _, [] => false
  | p :: ps, c :: cs => if c = p then isPrefixCs ps cs else false

/-- Model of `String.prototype.includes`: `pat` occurs somewhere in the
character list. -/
def isInfixCs (pat : List Char) : List Char → Bool
  | [] => isPrefixCs pat []
  | c :: cs => if isPrefixCs pat (c :: cs) then true else isInfixCs pat cs

/-- Drop an expected literal from the front of a character list, or fail.
Used to model anchored regular-expression fragments such as `^data:`. -/
def dropPrefixCs : List Char → List Char → Option (List Char)
  | [], cs => some cs
  | _ :: _, [] => none
  | p :: ps, c :: cs => if c = p then dropPrefixCs ps cs else none

/-- Split a character list at the first semicolon: returns the part before it
and the part from the semicolon on; fails when no semicolon occurs.  Models
the greedy regular-expression fragment `([^;]+);`. -/
def splitSemi : List Char → Option (List Char × List Char)
  | [] => none
  | c :: cs =>
    if c = ';' then some ([], c :: cs)
    else (splitSemi cs).map (fun p => (c :: p.1, p.2))

/-- JavaScript `String.prototype.toLowerCase` restricted to the alphabets the
code actually matches on (ASCII letters; CJK characters are unchanged by
either function). -/
def lowerStr (s : String) : String := String.mk (s.data.map Char.toLower)

/-- JavaScript `s.startsWith(pre)`. -/
def startsWithStr (s p : String) : Bool := isPrefixCs p.data s.data

/-- JavaScript `s.includes(pat)`. -/
def includesStr (s pat : String) : Bool := isInfixCs pat.data s.data

/-- JavaScript `s.substring(0, n)` (the code only ever uses it with start 0;
`n` counts characters). -/
def takeStr (s : String) (n : Nat) : String := String.mk (s.data.take n)

/-- Decimal rendering of a natural number, as JavaScript `String(n)`. -/
def natToStr (n : Nat) : String := (Nat.toDigits 10 n).asString

/-- Decimal rendering of an integer, as JavaScript `String(n)` on integral
numbers. -/
def intToStr : Int → String
  | Int.ofNat m => natToStr m
  | Int.negSucc m => "-" ++ natToStr (m + 1)

/-! Data-URI helpers from `src/utils/security.ts`. -/

/-- Parser for the anchored regular expression `^data:([^;]+);base64,`:
on success returns the captured MIME characters and the remainder of the
input after the matched prefix. -/
def dataUriSplitList (cs : List Char) : Option (List Char × List Char) :=
  (dropPrefixCs "data:".data cs).bind (fun rest =>
    (splitSemi rest).bind (fun p =>
      if p.1 = [] then none
      else (dropPrefixCs ";base64,".data p.2).map (fun tail => (p.1, tail))))

/-- `extractMimeTypeFromDataUri` from `src/utils/security.ts`: the first
capture group of `^data:([^;]+);base64,`, or `null` when the input is not a
data URI. -/
def extractMimeTypeFromDataUri (dataUri : String) : Option String :=
  match dataUriSplitList dataUri.data with
  | some (mime, _) => some (String.mk mime)
  | none => none

/-- The recurring sanitation step `base64.replace(/^data:[^;]+;base64,/, "")`
used by `buildDataUri` and `calculateBase64Size`. -/
def stripDataUriHead (s : String) : String :=
  match dataUriSplitList s.data with
  | some (_, tail) => String.mk tail
  | none => s

/-- `buildDataUri` from `src/utils/security.ts`: strips an existing data-URI
head from the payload, then rebuilds `data:<mime>;base64,<clean>`. -/
def buildDataUri (base64 mimeType : String) : String :=
  "data:" ++ mimeType ++ ";base64," ++ stripDataUriHead base64

/-- `calculateBase64Size` from `src/utils/security.ts`: decoded byte count of
a base64 payload, `floor(len * 3 / 4) - padding` after stripping a data-URI
head.  The JavaScript result can be negative on degenerate padding, so the
model uses `Int`. -/
def calculateBase64Size (base64 : String) : Int :=
  let cleanBase64 := stripDataUriHead base64
  let padding := (cleanBase64.data.filter (fun c => c = '=')).length
  ((cleanBase64.data.length * 3 / 4 : Nat) : Int) - (padding : Int)

/-! Canonical error classifier from `src/core/logger.ts` (the error-handler
section). -/

/-- The `ErrorType` enum. -/
inductive ErrorType where
  | MODERATION_BLOCKED
  | BAD_REQUEST
  | INTERNAL_ERROR
  | TIMEOUT
  | NO_AVAILABLE_KEY
  | RATE_LIMIT
  | UNKNOWN
deriving DecidableEq

/-- `ERROR_PATTERNS.moderation`. -/
def ERROR_PATTERNS_moderation : List String :=
  ["moderation_blocked", "moderation", "safety system", "safety_violations",
   "rejected by the safety", "cannot fulfill this request",
   "inappropriate content", "不当内容", "审核", "敏感内容"]

/-- `ERROR_PATTERNS.rateLimit`. -/
def ERROR_PATTERNS_rateLimit : List String :=
  ["rate limit", "too many requests", "quota exceeded", "throttled",
   "concurrency limit", "速率限制", "请求过于频繁", "配额"]

/-- `ERROR_PATTERNS.badRequest`. -/
def ERROR_PATTERNS_badRequest : List String :=
  ["bad request", "invalid parameter", "invalid input", "参数错误", "格式错误"]

/-- `ERROR_PATTERNS.timeout`. -/
def ERROR_PATTERNS_timeout : List String :=
  ["timeout", "timed out", "超时"]

/-- `ERROR_PATTERNS.noAvailableKey`. -/
def ERROR_PATTERNS_noAvailableKey : List String :=
  ["no available sub-groups", "no available key", "没有可用的key",
   "key不可用", "密钥不可用"]

/-- `ERROR_PATTERNS.databaseError`. -/
def ERROR_PATTERNS_databaseError : List String :=
  ["failed query", "database error", "db error", "query failed",
   "数据库错误", "查询失败"]

/-- `containsKeywords`: case-insensitive keyword search over the error
text. -/
def containsKeywords (text : String) (keywords : List String) : Bool :=
  keywords.any (fun keyword => includesStr (lowerStr text) (lowerStr keyword))

/-- `identifyErrorType`: keyword groups in precedence order, then the HTTP
status-code fallback.  `statusCode` is optional and, following the JavaScript
truthiness test `if (statusCode)`, a present status of `0` is treated like an
absent one. -/
def identifyErrorType (errorText : String) (statusCode : Option Nat) : ErrorType :=
  if containsKeywords errorText ERROR_PATTERNS_noAvailableKey then
    ErrorType.NO_AVAILABLE_KEY
  else if containsKeywords errorText ERROR_PATTERNS_rateLimit then
    ErrorType.RATE_LIMIT
  else if containsKeywords errorText ERROR_PATTERNS_databaseError then
    ErrorType.INTERNAL_ERROR
  else if containsKeywords errorText ERROR_PATTERNS_moderation then
    ErrorType.MODERATION_BLOCKED
  else if containsKeywords errorText ERROR_PATTERNS_timeout then
    ErrorType.TIMEOUT
  else if containsKeywords errorText ERROR_PATTERNS_badRequest then
    ErrorType.BAD_REQUEST
  else
    match statusCode with
    | none => ErrorType.UNKNOWN
    | some code =>
      if code = 0 then ErrorType.UNKNOWN
      else if code = 400 then ErrorType.BAD_REQUEST
      else if code = 500 || code = 502 then ErrorType.INTERNAL_ERROR
      else if code = 503 then
        if containsKeywords errorText ERROR_PATTERNS_noAvailableKey then
          ErrorType.NO_AVAILABLE_KEY
        else ErrorType.INTERNAL_ERROR
      else if code = 408 || code = 504 then ErrorType.TIMEOUT
      else if code = 429 then ErrorType.RATE_LIMIT
      else ErrorType.UNKNOWN

/-- `FRIENDLY_MESSAGES`: the fixed canned message per canonical kind. -/
def FRIENDLY_MESSAGES : ErrorType → String
  | ErrorType.MODERATION_BLOCKED =>
    "内容审核失败：您的请求因包含不当或敏感内容被安全系统拒绝。请修改提示词后重试。"
  | ErrorType.BAD_REQUEST => "请求参数错误：请检查提示词或图片格式是否正确。"
  | ErrorType.INTERNAL_ERROR => "服务提供商内部错误：服务暂时不可用，请稍后重试或更换其他模型。"
  | ErrorType.TIMEOUT => "请求超时：服务器响应时间过长，请稍后重试。"
  | ErrorType.NO_AVAILABLE_KEY => "API Key 不可用：当前没有可用的 API 密钥，请检查配置或稍后重试。"
  | ErrorType.RATE_LIMIT => "频繁 速率限制已超出：请求过于频繁，请稍后重试。"
  | ErrorType.UNKNOWN => "图片生成失败：未知错误，请稍后重试。"

/-- The optional provider tag added at the end of `parseErrorMessage`:
`[Provider] message` when a provider name is given. -/
def withProviderTag : Option String → String → String
  | some p, msg => "[" ++ p ++ "] " ++ msg
  | none, msg => msg

/-- `parseErrorMessage` from `src/core/logger.ts`.  Steps 1 to 4 of the
source (URL truncation, stack-trace and path removal, one level of JSON
message extraction, and the 60-character cap) only transform the raw error
text before it reaches `identifyErrorType`; they are modelled by the explicit
`sanitize` parameter so that every theorem below holds for every possible
behaviour of that pipeline.  Step 5 (kind identification, canned message
lookup, provider tag) is modelled exactly. -/
def parseErrorMessage (sanitize : String → String) (errorText : String)
    (statusCode : Option Nat) (provider : Option String) : String :=
  let parsedError := sanitize errorText
  let errorType := identifyErrorType parsedError statusCode
  let friendlyMessage := FRIENDLY_MESSAGES errorType
  withProviderTag provider friendlyMessage

/-! A small JSON value model for the provider response shapes. -/

/-- JSON values.  Object fields keep their textual order; `num` is restricted
to the integral values the code actually inspects. -/
inductive Json where
  | null
  | bool (b : Bool)
  | num (n : Int)
  | str (s : String)
  | arr (elems : List Json)
  | obj (fields : List (String × Json))

/-- First field with the given key, if any. -/
def getFieldAux : List (String × Json) → String → Option Json
  | [], _ => none
  | (k, v) :: rest, key => if k = key then some v else getFieldAux rest key

/-- Field access on an object; anything else has no fields. -/
def getField : Json → String → Option Json
  | Json.obj fs, key => getFieldAux fs key
  | _, _ => none

/-- JavaScript property read `j.key`: a missing property reads as
`undefined`, which the code only ever probes through truthiness, `typeof` and
`===` against strings, so it is identified with `null` here. -/
def jsGet (j : Json) (key : String) : Json := (getField j key).getD Json.null

/-- JavaScript truthiness of a JSON value. -/
def jsTruthy : Json → Bool
  | Json.null => false
  | Json.bool b => b
  | Json.num n => decide (n ≠ 0)
  | Json.str s => decide (s ≠ "")
  | Json.arr _ => true
  | Json.obj _ => true

/-- JavaScript `typeof v === "object"` for a truthy value: objects and
arrays. -/
def jsIsObjLike : Json → Bool
  | Json.arr _ => true
  | Json.obj _ => true
  | _ => false

/-- JavaScript string coercion as used in template literals.  Arrays coerce
to the join of their elements; that case is never reached by the claims and
is rendered as the empty string of `[].toString()` shape. -/
def jsToStr : Json → String
  | Json.null => "null"
  | Json.bool b => if b then "true" else "false"
  | Json.num n => intToStr n
  | Json.str s => s
  | Json.arr _ => ""
  | Json.obj _ => "[object Object]"

/-- Comma-joined rendering of already-rendered items. -/
def commaJoin : List String → String
  | [] => ""
  | [s] => s
  | s :: rest => s ++ "," ++ commaJoin rest

/-- Fuel-bounded model of `JSON.stringify` (string escaping omitted; the
rendered text only ever lands in diagnostic messages and no claim depends on
its exact content).  The fuel bounds the nesting depth so the function stays
kernel-computable. -/
def jsonRenderF : Nat → Json → String
  | 0, _ => ""
  | _ + 1, Json.null => "null"
  | _ + 1, Json.bool b => if b then "true" else "false"
  | _ + 1, Json.num n => intToStr n
  | _ + 1, Json.str s => "\"" ++ s ++ "\""
  | f + 1, Json.arr es => "[" ++ commaJoin (es.map (jsonRenderF f)) ++ "]"
  | f + 1, Json.obj fs =>
    "\x7b" ++
      commaJoin (fs.map (fun kv => "\"" ++ kv.1 ++ "\":" ++ jsonRenderF f kv.2)) ++
    "\x7d"

/-- `JSON.stringify` model with a fixed generous depth bound. -/
def jsonRender (j : Json) : String := jsonRenderF 1000 j

/-! Shared provider result types (`src/types/provider.ts`,
`src/types/request.ts`). -/

/-- `ImageData`: an output image carrying a URL or an inline base64
payload. -/
structure ImageData where
  url : Option String := none
  b64_json : Option String := none
deriving DecidableEq

/-- `GenerationResult`: the unified provider result.  `duration` is wall
clock in the source (`Date.now()` differences) and is outside the model, so
results constructed here leave it `none`. -/
structure GenerationResult where
  success : Bool
  images : Option (List ImageData) := none
  model : Option String := none
  provider : Option String := none
  error : Option String := none
  duration : Option Int := none
deriving DecidableEq

/-! The ModelScope provider (`src/providers/modelscope.ts`): submission and
the asynchronous poll loop. -/

/-- Outcome of one upstream HTTP exchange that did not throw: a non-ok
response with its error text, or a parsed JSON body.  A thrown fetch is not
modelled because it propagates out of `generate` instead of producing a
`GenerationResult`. -/
inductive PollReply where
  | httpError (status : Nat) (text : String)
  | body (json : Json)

/-- Environment of one ModelScope `generate` call: the image-host upload
oracle (`base64ToUrl`, `Except.error` models a thrown upload), the submission
response, the poll script (attempt index and `X-ModelScope-Task-Type` header
to reply), the result-download oracle (`urlToBase64`, `none` models a throw)
and the sanitization pipeline of `parseErrorMessage`. -/
structure MSEnv where
  upload : String → Except String String
  submitResp : PollReply
  reply : Nat → String → PollReply
  download : String → Option (String × String)
  sanitize : String → String

/-- `taskTypeOrder` from the poll loop: `image_generation` first,
`video_generation` as the fallback. -/
def taskTypeOrder : List String := ["image_generation", "video_generation"]

/-- `normalizeTaskData`: accept the raw body when it is an object with a
string `task_status`, else look one level down under `data` (or `Data`). -/
def normalizeTaskData (raw : Json) : Option Json :=
  if !(jsTruthy raw && jsIsObjLike raw) then none
  else
    match jsGet raw "task_status" with
    | Json.str _ => some raw
    | _ =>
      let nested :=
        match jsGet raw "data" with
        | Json.null => jsGet raw "Data"
        | d => d
      if jsTruthy nested && jsIsObjLike nested then
        match jsGet nested "task_status" with
        | Json.str _ => some nested
        | _ => none
      else none

/-- Keep the non-empty strings of a JSON array (the
`filter((v) => typeof v === "string" && v.length > 0)` step). -/
def filterNonEmptyStrings (items : List Json) : List String :=
  items.filterMap (fun v =>
    match v with
    | Json.str s => if s.data.length > 0 then some s else none
    | _ => none)

/-- `extractOutputImages`: the direct `output_images` array, else the
`outputs.output_images` nesting, else no output. -/
def extractOutputImages (data : Json) : List String :=
  match jsGet data "output_images" with
  | Json.arr items => filterNonEmptyStrings items
  | _ =>
    let outputs := jsGet data "outputs"
    if jsTruthy outputs && jsIsObjLike outputs then
      match jsGet outputs "output_images" with
      | Json.arr items => filterNonEmptyStrings items
      | _ => []
    else []

/-- Diagnostic recorded in `lastPollError` for a non-ok poll response. -/
def pollHttpMsg (status : Nat) (taskType : String) (text : String) : String :=
  "HTTP " ++ natToStr status ++ "(" ++ taskType ++ "): " ++ takeStr text 200

/-- Diagnostic recorded in `lastPollError` for a body `normalizeTaskData`
rejects. -/
def pollAbnormalMsg (taskType : String) (j : Json) : String :=
  "异常响应(" ++ taskType ++ "): " ++ takeStr (jsonRender j) 200

/-- One poll attempt: try the task types in order (`getTaskStatus`), return
the first normalized body together with the updated `lastPollError`.  A
non-ok response or an abnormal body yields no data but records a
diagnostic. -/
def tryTaskTypes (env : MSEnv) (i : Nat) :
    List String → Option String → Option Json × Option String
  | [], lastErr => (none, lastErr)
  | t :: ts, lastErr =>
    match env.reply i t with
    | PollReply.httpError status text =>
      tryTaskTypes env i ts (some (pollHttpMsg status t text))
    | PollReply.body j =>
      match normalizeTaskData j with
      | some d => (some d, lastErr)
      | none => tryTaskTypes env i ts (some (pollAbnormalMsg t j))

/-- The timeout result produced after `maxAttempts` polls. -/
def msTimeoutResult : GenerationResult :=
  { success := false, error := some "ModelScope Task Timeout" }

/-- The abort result produced when the invalid-response streak reaches its
threshold. -/
def msStreakFailResult (lastPollError : Option String) : GenerationResult :=
  { success := false
    error := some ("ModelScope 任务状态查询返回异常：" ++
      lastPollError.getD "可能任务类型不匹配或任务不存在") }

/-- The success result: every extracted output URL is downloaded and
converted to base64 (`urlToBase64`); a failed conversion falls back to the
URL itself. -/
def msSucceedResult (env : MSEnv) (d : Json) : GenerationResult :=
  let outputImageUrls := extractOutputImages d
  let results := outputImageUrls.map (fun u =>
    match env.download u with
    | some (base64, _mimeType) => ({ b64_json := some base64 } : ImageData)
    | none => ({ url := some u } : ImageData))
  { success := true, images := some results }

/-- The failure result for a `FAILED` status: the first truthy of
`errors`, `error`, `message`, else the stringified body. -/
def msFailedResult (d : Json) : GenerationResult :=
  let failReason :=
    if jsTruthy (jsGet d "errors") then jsToStr (jsGet d "errors")
    else if jsTruthy (jsGet d "error") then jsToStr (jsGet d "error")
    else if jsTruthy (jsGet d "message") then jsToStr (jsGet d "message")
    else jsonRender d
  { success := false, error := some ("ModelScope Task Failed: " ++ failReason) }

/-- The poll loop of `ModelScopeProvider.generate`: fuel is the remaining
attempt budget, `i` the 0-based attempt index, then the invalid-response
streak and `lastPollError`.  Returns the result together with the number of
polls performed.  The 5-second sleep between polls is wall clock and outside
the model. -/
def msPollLoop (env : MSEnv) : Nat → Nat → Nat → Option String → GenerationResult × Nat
  | 0, i, _, _ => (msTimeoutResult, i)
  | fuel + 1, i, streak, lastErr =>
    match tryTaskTypes env i taskTypeOrder lastErr with
    | (none, lastErr') =>
      if streak + 1 ≥ 6 then (msStreakFailResult lastErr', i + 1)
      else msPollLoop env fuel (i + 1) (streak + 1) lastErr'
    | (some d, lastErr') =>
      match jsGet d "task_status" with
      | Json.str s =>
        if s = "SUCCEED" then (msSucceedResult env d, i + 1)
        else if s = "FAILED" then (msFailedResult d, i + 1)
        else msPollLoop env fuel (i + 1) 0 lastErr'
      | _ => msPollLoop env fuel (i + 1) 0 lastErr'

/-- `maxAttempts` of the poll loop: 120 polls at 5-second interval. -/
def msMaxAttempts : Nat := 120

/-- The whole polling phase: 120 attempts starting with streak 0 and no
recorded poll error. -/
def msGeneratePoll (env : MSEnv) : GenerationResult × Nat :=
  msPollLoop env msMaxAttempts 0 0 none

/-- The data (if any) a given attempt index would observe (the first
component of `tryTaskTypes` does not depend on the threaded
`lastPollError`). -/
def attemptCheck (env : MSEnv) (i : Nat) : Option Json :=
  (tryTaskTypes env i taskTypeOrder none).1

/-- Attempt `i` is invalid: neither task type yields a normalized body. -/
def invalidAtB (env : MSEnv) (i : Nat) : Bool := (attemptCheck env i).isNone

/-- Attempt `i` observes a terminal status (`SUCCEED` or `FAILED`). -/
def terminalAtB (env : MSEnv) (i : Nat) : Bool :=
  match attemptCheck env i with
  | some d =>
    match jsGet d "task_status" with
    | Json.str s => s = "SUCCEED" || s = "FAILED"
    | _ => false
  | none => false

/-- Upload phase of image-to-image requests: `http` references pass through,
inline payloads are wrapped into data URIs and uploaded via `base64ToUrl`;
the first upload failure aborts with the indexed error message. -/
def msUploadImages (env : MSEnv) : List String → Nat → Except String (List String)
  | [], _ => Except.ok []
  | img :: rest, i =>
    if startsWithStr img "http" then
      (msUploadImages env rest (i + 1)).map (fun us => img :: us)
    else
      let dataUri := if startsWithStr img "data:" then img else buildDataUri img "image/png"
      match env.upload dataUri with
      | Except.ok imageUrl => (msUploadImages env rest (i + 1)).map (fun us => imageUrl :: us)
      | Except.error msg =>
        Except.error ("第" ++ natToStr (i + 1) ++ "张输入图片上传图床失败: " ++ msg)

/-- The request fields the modelled paths inspect
(`ImageGenerationRequest` from `src/types/request.ts`; prompt, model and
size selection do not influence any claim and carry through unmodified). -/
structure ImageGenerationRequest where
  prompt : Option String := none
  images : List String := []
  model : Option String := none
  size : Option String := none

/-- Image-to-image pre-phase of `ModelScopeProvider.generate`: when input
images are present, run the uploads and require at least one resulting
URL. -/
def msAfterUpload (env : MSEnv) (images : List String) : Except String Unit :=
  if !images.isEmpty then
    match msUploadImages env images 0 with
    | Except.error msg => Except.error msg
    | Except.ok urlImages =>
      if urlImages.isEmpty then Except.error "图生图失败：无可用输入图片 URL"
      else Except.ok ()
  else Except.ok ()

/-- Task-id extraction from the submit response: a string is taken as-is, a
finite number is stringified, anything else yields the empty (falsy) id. -/
def msTaskId (submitData : Json) : String :=
  match jsGet submitData "task_id" with
  | Json.str s => s
  | Json.num n => intToStr n
  | _ => ""

/-- `ModelScopeProvider.generate` without the wall clock: upload the input
images, submit the task, extract the task id, then drive the poll loop.
Model and size selection, logging and the request body construction have no
bearing on the claims and are omitted. -/
def msGenerate (env : MSEnv) (request : ImageGenerationRequest) : GenerationResult :=
  match msAfterUpload env request.images with
  | Except.error msg => { success := false, error := some msg }
  | Except.ok _ =>
    match env.submitResp with
    | PollReply.httpError status text =>
      { success := false
        error := some (parseErrorMessage env.sanitize text (some status) (some "ModelScope")) }
    | PollReply.body submitData =>
      if msTaskId submitData = "" then
        { success := false, error := some "ModelScope 任务提交失败：未返回 task_id" }
      else (msGeneratePoll env).1

/-! The Doubao provider (`src/providers/doubao.ts`): a synchronous
request/response shape inside one `try`/`catch`. -/

/-- Outcome of the single Doubao upstream call: a thrown fetch (caught by the
surrounding `try`), a non-ok response, or an ok JSON body. -/
inductive FetchOutcome where
  | threw (msg : String)
  | httpError (status : Nat) (text : String)
  | ok (json : Json)

/-- Environment of one Doubao `generate` call. -/
structure DoubaoEnv where
  response : FetchOutcome
  download : String → Option (String × String)
  sanitize : String → String

/-- JavaScript `a || b` on an optional string: the empty string is falsy. -/
def jsOrStr : Option String → String → String
  | some s, d => if s = "" then d else s
  | none, d => d

/-- Truthiness of an optional string field (`img.url || img.b64_json`). -/
def optStrTruthy : Option String → Bool
  | some s => decide (s ≠ "")
  | none => false

/-- Result conversion of one Doubao output entry: prefer the inline base64,
else download the URL (falling back to the URL when the download throws),
else an empty entry. -/
def doubaoConvertImage (env : DoubaoEnv) (img : Json) : ImageData :=
  if jsTruthy (jsGet img "b64_json") then
    { b64_json := some (jsToStr (jsGet img "b64_json")) }
  else if jsTruthy (jsGet img "url") then
    match env.download (jsToStr (jsGet img "url")) with
    | some (base64, _mimeType) => { b64_json := some base64 }
    | none => { url := some (jsToStr (jsGet img "url")) }
  else {}

/-- The `catch` branch of `DoubaoProvider.generate`: every thrown error
becomes a failure result carrying `request.model || defaultModel`. -/
def doubaoFailure (request : ImageGenerationRequest) (defaultModel msg : String) :
    GenerationResult :=
  { success := false, error := some msg
    model := some (jsOrStr request.model defaultModel)
    provider := some "Doubao" }

/-- `DoubaoProvider.generate` without the wall clock.  The selected model
string is threaded through unchanged (`selectModel` of the base provider
picks among configured names and affects no claim); prompt rewriting and
request-body construction are omitted for the same reason. -/
def doubaoGenerate (env : DoubaoEnv) (request : ImageGenerationRequest)
    (selectedModel defaultModel : String) : GenerationResult :=
  match env.response with
  | FetchOutcome.threw msg => doubaoFailure request defaultModel msg
  | FetchOutcome.httpError status text =>
    doubaoFailure request defaultModel
      (parseErrorMessage env.sanitize text (some status) (some "Doubao"))
  | FetchOutcome.ok data =>
    match jsGet data "data" with
    | Json.arr items =>
      { success := true
        images := some ((items.map (doubaoConvertImage env)).filter
          (fun im => optStrTruthy im.url || optStrTruthy im.b64_json))
        model := some selectedModel
        provider := some "Doubao" }
    | j =>
      if jsTruthy j then
        -- `(data.data || []).map` on a truthy non-array throws a TypeError,
        -- caught by the surrounding catch.
        doubaoFailure request defaultModel "imageData.map is not a function"
      else
        { success := true, images := some []
          model := some selectedModel, provider := some "Doubao" }

/-! The image normalizer / compressor (`src/utils/security.ts`,
`compressDataUriToTarget` and `normalizeAndCompressInputImages`). -/

/-- Abstract single-frame image codec standing for the `imagescript`
library.  A byte array is represented by its base64 encoding, so the decoded
byte count of an encoder output `b` is `calculateBase64Size b`.  `none`
models a thrown decode / encode / resize. -/
structure Codec (Img : Type) where
  decode : String → Option Img
  encodeJPEG : Img → Nat → Option String
  width : Img → Nat
  resize : Img → Nat → Option Img

/-- The descending quality ladder of the compression loop. -/
def qualities : List Nat := [85, 75, 65, 55, 45, 35, 25]

/-- One pass of the quality ladder.  `Sum.inl r` is an early return of the
source (`return dataUri` on an encode throw, or the JPEG data URI of the
first candidate meeting the target); `Sum.inr best` finishes the ladder
keeping the smallest candidate seen. -/
def qualityLadder {Img : Type} (c : Codec Img) (working : Img) (dataUri : String)
    (targetBytes : Int) : List Nat → Option String → Sum String (Option String)
  | [], best => Sum.inr best
  | q :: qs, best =>
    match c.encodeJPEG working q with
    | none => Sum.inl dataUri
    | some encoded =>
      -- The source updates `best` before the target test; an early return
      -- discards `best`, so folding the update into the recursive call is
      -- observationally identical.
      if calculateBase64Size encoded ≤ targetBytes then
        Sum.inl (buildDataUri encoded "image/jpeg")
      else
        qualityLadder c working dataUri targetBytes qs
          (match best with
           | none => some encoded
           | some b =>
             if calculateBase64Size encoded < calculateBase64Size b then some encoded
             else some b)

/-- Final result when the pass budget is exhausted or the loop breaks: the
best candidate as a JPEG data URI, else the original. -/
def finishBest (dataUri : String) : Option String → String
  | some b => buildDataUri b "image/jpeg"
  | none => dataUri

/-- The resize-and-retry passes (`for (let pass = 0; pass < 6; pass++)`),
shrinking the raster to 85 % of its width between ladder runs.
`Math.floor(width * 0.85)` is modelled as `width * 85 / 100` (floor division;
the two agree except on double-rounding corner cases that no claim
touches). -/
def compressPasses {Img : Type} (c : Codec Img) (dataUri : String) (targetBytes : Int) :
    Nat → Img → Option String → String
  | 0, _, best => finishBest dataUri best
  | pass + 1, working, best =>
    match qualityLadder c working dataUri targetBytes qualities best with
    | Sum.inl r => r
    | Sum.inr best' =>
      if max 1 (c.width working * 85 / 100) ≥ c.width working then finishBest dataUri best'
      else
        match c.resize working (max 1 (c.width working * 85 / 100)) with
        | none => finishBest dataUri best'
        | some resized => compressPasses c dataUri targetBytes pass resized best'

/-- `compressDataUriToTarget`: GIFs pass through, payloads already within the
target pass through, a decode failure passes through, otherwise run up to 6
resize passes of the quality ladder. -/
def compressDataUriToTarget {Img : Type} (c : Codec Img) (dataUri : String)
    (targetBytes : Int) : String :=
  let mimeType := (extractMimeTypeFromDataUri dataUri).getD "image/png"
  if mimeType = "image/gif" then dataUri
  else
    let rawSize := calculateBase64Size dataUri
    if rawSize ≤ targetBytes then dataUri
    else
      match c.decode dataUri with
      | none => dataUri
      | some image => compressPasses c dataUri targetBytes 6 image none

/-- Network oracles of the normalizer: the header-only size probe
(`tryGetContentLength`, `none` on any failure) and the download
(`urlToBase64`, `none` models a throw). -/
structure NetEnv where
  contentLength : String → Option Int
  download : String → Option (String × String)

/-- Default `maxBytes` of `normalizeAndCompressInputImages`. -/
def DEFAULT_MAX_BYTES : Int := 2 * 1024 * 1024

/-- Default `targetBytes` of `normalizeAndCompressInputImages`. -/
def DEFAULT_TARGET_BYTES : Int := 1024 * 1024

/-- The per-entry body of the `normalizeAndCompressInputImages` loop (for a
non-empty entry): remote URLs are probed and only materialized when the probe
is inconclusive or over budget; inline payloads within `maxBytes` pass
through byte-identical, larger ones enter the compression loop. -/
def normalizeOne {Img : Type} (c : Codec Img) (net : NetEnv)
    (maxBytes targetBytes : Int) (img : String) : String :=
  if startsWithStr img "http" then
    match net.contentLength img with
    | some contentLength =>
      if contentLength ≤ maxBytes then img
      else
        match net.download img with
        | none => img
        | some (base64, mimeType) =>
          let dataUri := buildDataUri base64 mimeType
          if calculateBase64Size dataUri ≤ maxBytes then img
          else compressDataUriToTarget c dataUri targetBytes
    | none =>
      match net.download img with
      | none => img
      | some (base64, mimeType) =>
        let dataUri := buildDataUri base64 mimeType
        if calculateBase64Size dataUri ≤ maxBytes then img
        else compressDataUriToTarget c dataUri targetBytes
  else
    if calculateBase64Size img ≤ maxBytes then img
    else
      let dataUri := if startsWithStr img "data:" then img else buildDataUri img "image/png"
      compressDataUriToTarget c dataUri targetBytes

/-- `normalizeAndCompressInputImages`: the entry loop.  `if (!img) continue`
skips falsy (empty) entries; every other entry contributes exactly one
result. -/
def normalizeAndCompressInputImages {Img : Type} (c : Codec Img) (net : NetEnv)
    (maxBytes targetBytes : Int) : List String → List String
  | [] => []
  | img :: rest =>
    if img = "" then normalizeAndCompressInputImages c net maxBytes targetBytes rest
    else normalizeOne c net maxBytes targetBytes img ::
      normalizeAndCompressInputImages c net maxBytes targetBytes rest

/-! The generation attempt loop of `handleImagesGenerations`
(`src/handlers/edits.ts`). -/

/-- How the handler leaves the attempt loop: the immediate 503
`No available API keys` response when the pool is empty on attempt 1, the
`throw new Error(lastError)` path (surfaced by the handler's catch as a 500),
or a success result. -/
inductive LoopOutcome where
  | poolExhausted
  | thrown (msg : String)
  | ok (result : GenerationResult)
deriving DecidableEq

/-- Environment of the attempt loop: the credential pool
(`getNextAvailableKey`, indexed by 0-based attempt; `none` means no eligible
key) and the provider's generate operation per attempt and key.  Health
reports (`reportKeySuccess` / `reportKeyError`) only mutate pool state for
later calls and are part of the pool script. -/
structure OrchEnv where
  pool : Nat → Option String
  generate : Nat → String → GenerationResult

/-- The `while (attempts < maxAttempts)` loop, returning the outcome and the
number of provider invocations.  `attempts` here is the 0-based index of the
current attempt (the source increments its counter at the top of each
iteration, so the source's `attempts` equals this index plus one and its
`attempts === 1` test is `attempts = 0` here).  The fuel-0 equation is the
post-loop `throw new Error(lastError)`.  In backend mode each iteration
draws a fresh pool key and a failed attempt records the classified error and
retries; relay mode keeps the caller's key and stops on the first failure.
The body is written out once per mode instead of via the shared local
closure of the source. -/
def attemptLoopAux (backend : Bool) (env : OrchEnv) (relayKey : String) :
    Nat → Nat → Option String → Nat → LoopOutcome × Nat
  | 0, _, lastError, invocations =>
    (LoopOutcome.thrown (lastError.getD "图片生成失败"), invocations)
  | fuel + 1, attempts, lastError, invocations =>
    if backend then
      match env.pool attempts with
      | none =>
        if attempts = 0 then (LoopOutcome.poolExhausted, invocations)
        else (LoopOutcome.thrown (lastError.getD "图片生成失败"), invocations)
      | some poolKey =>
        if (env.generate attempts poolKey).success then
          (LoopOutcome.ok (env.generate attempts poolKey), invocations + 1)
        else
          attemptLoopAux backend env relayKey fuel (attempts + 1)
            (some ((env.generate attempts poolKey).error.getD "Unknown error"))
            (invocations + 1)
    else
      if (env.generate attempts relayKey).success then
        (LoopOutcome.ok (env.generate attempts relayKey), invocations + 1)
      else
        (LoopOutcome.thrown ((env.generate attempts relayKey).error.getD "Unknown error"),
          invocations + 1)

/-- The attempt loop with its mode-dependent bound: `maxAttempts` is 3 in
backend mode and 1 in relay mode. -/
def runAttemptLoop (backend : Bool) (env : OrchEnv) (relayKey : String) :
    LoopOutcome × Nat :=
  attemptLoopAux backend env relayKey (if backend then 3 else 1) 0 none 0

/-! Predicates and concrete instances used by the theorems below. -/

/-- Exactly one of `images` / `error` is populated, in the sense of the
result invariant: a success carries images and no error, a failure carries an
error and no images. -/
def exclusiveResult (r : GenerationResult) : Prop :=
  (r.success = true ∧ r.images.isSome = true ∧ r.error = none) ∨
  (r.success = false ∧ r.error.isSome = true ∧ r.images = none)

/-- A concrete codec on a trivial image type: decoding always succeeds, every
JPEG encode yields the same 9-byte payload (base64 `AAAAAAAAAAAA`), the
raster is 1 pixel wide so no resize pass can shrink it. -/
def codecBigJpeg : Codec Unit where
  decode := fun _ => some ()
  encodeJPEG := fun _ _ => some "AAAAAAAAAAAA"
  width := fun _ => 1
  resize := fun _ _ => none

/-- A network environment whose probe and download always fail. -/
def netNone : NetEnv where
  contentLength := fun _ => none
  download := fun _ => none

/-- A concrete inline payload of decoded size 5 bytes. -/
def imgOver : String := "AAAAAAA="

/-- A poll body with a non-terminal status. -/
def msPendingBody : Json := Json.obj [("task_status", Json.str "PENDING")]

/-- A poll body with terminal status `SUCCEED` but no recognizable output
field. -/
def msSucceedNoOutputBody : Json := Json.obj [("task_status", Json.str "SUCCEED")]

/-- A ModelScope environment with a fixed poll script and trivial oracles. -/
def msEnvBase (r : Nat → String → PollReply) : MSEnv where
  upload := fun _ => Except.error "unused"
  submitResp := PollReply.body (Json.obj [("task_id", Json.str "task-1")])
  reply := r
  download := fun _ => none
  sanitize := id

/-- Every poll returns `SUCCEED` with no recognizable output. -/
def msEnvSucceedNoOutput : MSEnv :=
  msEnvBase (fun _ _ => PollReply.body msSucceedNoOutputBody)

/-- Every poll returns a valid non-terminal status. -/
def msEnvAllPending : MSEnv :=
  msEnvBase (fun _ _ => PollReply.body msPendingBody)

/-- Every poll fails at the HTTP level. -/
def msEnvAllInvalid : MSEnv :=
  msEnvBase (fun _ _ => PollReply.httpError 500 "boom")

/-- An orchestrator environment whose credential pool is empty. -/
def orchEnvEmptyPool : OrchEnv where
  pool := fun _ => none
  generate := fun _ _ => { success := false, error := some "unreachable" }

/-- An orchestrator environment with a single key that fails once and no key
thereafter. -/
def orchEnvOneKey : OrchEnv where
  pool := fun n => if n = 0 then some "key-a" else none
  generate := fun _ _ => { success := false, error := some "boom" }

/-! Helper lemmas about the data-URI helpers. -/

theorem dropPrefixCs_append (p x : List Char) : dropPrefixCs p (p ++ x) = some x := by
  induction p with
  | nil => rfl
  | cons c cs ih => simp [dropPrefixCs, ih]

theorem splitSemi_append (a r : List Char) (ha : ';' ∉ a) :
    splitSemi (a ++ ';' :: r) = some (a, ';' :: r) := by
  induction a with
  | nil => rfl
  | cons c cs ih =>
    simp only [List.mem_cons, not_or] at ha
    have hc : ¬(c = ';') := fun h => ha.1 h.symm
    simp [splitSemi, hc, ih ha.2]

theorem dataUriSplitList_round (mime : String) (x : List Char)
    (h1 : ';' ∉ mime.data) (h2 : mime.data ≠ []) :
    dataUriSplitList ("data:".data ++ mime.data ++ ";base64,".data ++ x) =
      some (mime.data, x) := by
  have e1 : "data:".data ++ mime.data ++ ";base64,".data ++ x =
      "data:".data ++ (mime.data ++ (";base64,".data ++ x)) := by
    simp [List.append_assoc]
  have e2 : ";base64,".data ++ x = ';' :: ("base64,".data ++ x) := rfl
  unfold dataUriSplitList
  rw [e1]
  simp only [dropPrefixCs_append, Option.some_bind]
  rw [e2, splitSemi_append mime.data _ h1]
  simp only [Option.some_bind]
  rw [if_neg h2, ← e2, dropPrefixCs_append]
  rfl

theorem buildDataUri_data (b mime : String) :
    (buildDataUri b mime).data =
      "data:".data ++ mime.data ++ ";base64,".data ++ (stripDataUriHead b).data := rfl

theorem dataUriSplitList_buildDataUri (b mime : String)
    (h1 : ';' ∉ mime.data) (h2 : mime.data ≠ []) :
    dataUriSplitList (buildDataUri b mime).data =
      some (mime.data, (stripDataUriHead b).data) := by
  rw [buildDataUri_data]
  exact dataUriSplitList_round mime _ h1 h2

theorem extractMime_buildDataUri (b mime : String)
    (h1 : ';' ∉ mime.data) (h2 : mime.data ≠ []) :
    extractMimeTypeFromDataUri (buildDataUri b mime) = some mime := by
  unfold extractMimeTypeFromDataUri
  rw [dataUriSplitList_buildDataUri b mime h1 h2]

theorem stripDataUriHead_buildDataUri (b mime : String)
    (h1 : ';' ∉ mime.data) (h2 : mime.data ≠ []) :
    stripDataUriHead (buildDataUri b mime) = stripDataUriHead b := by
  conv_lhs => unfold stripDataUriHead
  rw [dataUriSplitList_buildDataUri b mime h1 h2]

theorem calc_buildDataUri (b mime : String)
    (h1 : ';' ∉ mime.data) (h2 : mime.data ≠ []) :
    calculateBase64Size (buildDataUri b mime) = calculateBase64Size b := by
  unfold calculateBase64Size
  rw [stripDataUriHead_buildDataUri b mime h1 h2]

/-! Helper lemmas about the compression loop. -/

theorem qualityLadder_inl {Img : Type} (c : Codec Img) (w : Img) (dataUri : String)
    (t : Int) : ∀ (qs : List Nat) (best : Option String) (r : String),
    qualityLadder c w dataUri t qs best = Sum.inl r →
    r = dataUri ∨ ∃ enc, r = buildDataUri enc "image/jpeg" ∧ calculateBase64Size enc ≤ t := by
  intro qs
  induction qs with
  | nil => intro best r h; simp [qualityLadder] at h
  | cons q qs ih =>
    intro best r h
    rw [qualityLadder] at h
    split at h
    · exact Or.inl (Sum.inl.inj h).symm
    · split at h
      · next encoded _ hle =>
        exact Or.inr ⟨encoded, (Sum.inl.inj h).symm, hle⟩
      · exact ih _ _ h

theorem compressPasses_cases {Img : Type} (c : Codec Img) (dataUri : String) (t : Int) :
    ∀ (n : Nat) (w : Img) (best : Option String),
    compressPasses c dataUri t n w best = dataUri ∨
      ∃ b, compressPasses c dataUri t n w best = buildDataUri b "image/jpeg" := by
  intro n
  induction n with
  | zero =>
    intro w best
    cases best with
    | none => exact Or.inl rfl
    | some b => exact Or.inr ⟨b, rfl⟩
  | succ pass ih =>
    intro w best
    rw [compressPasses]
    split
    · next r hl =>
      rcases qualityLadder_inl c w dataUri t qualities best r hl with h | ⟨enc, he, _⟩
      · exact Or.inl h
      · exact Or.inr ⟨enc, he⟩
    · next best' _ =>
      split
      · cases best' with
        | none => exact Or.inl rfl
        | some b => exact Or.inr ⟨b, rfl⟩
      · split
        · cases best' with
          | none => exact Or.inl rfl
          | some b => exact Or.inr ⟨b, rfl⟩
        · next resized _ => exact ih resized best'

theorem compress_result_cases {Img : Type} (c : Codec Img) (dataUri : String) (t : Int) :
    compressDataUriToTarget c dataUri t = dataUri ∨
      ∃ b, compressDataUriToTarget c dataUri t = buildDataUri b "image/jpeg" := by
  unfold compressDataUriToTarget
  by_cases hg : (extractMimeTypeFromDataUri dataUri).getD "image/png" = "image/gif"
  · rw [if_pos hg]; exact Or.inl rfl
  · rw [if_neg hg]
    by_cases hs : calculateBase64Size dataUri ≤ t
    · rw [if_pos hs]; exact Or.inl rfl
    · rw [if_neg hs]
      cases hd : c.decode dataUri with
      | none => exact Or.inl rfl
      | some image => exact compressPasses_cases c dataUri t 6 image none

/-! Claim C2: entry count and order of the normalizer. -/

/-- C2 (counterexample): `normalizeAndCompressInputImages` does not preserve
the entry count — the `if (!img) continue` guard drops the empty-string
entry, so the singleton input `[""]` produces an empty output list. -/
theorem C2_counterexample_empty_entry_dropped :
    (normalizeAndCompressInputImages codecBigJpeg netNone DEFAULT_MAX_BYTES
        DEFAULT_TARGET_BYTES [""]).length ≠ (([""] : List String)).length := by
  decide

/-- C2 (amended): the normalizer returns exactly one entry per non-empty
input entry, in input order — it is the element-wise normalization of the
input with the (falsy) empty-string entries dropped. -/
theorem C2_amended_filter_map (Img : Type) (c : Codec Img) (net : NetEnv)
    (maxBytes targetBytes : Int) (images : List String) :
    normalizeAndCompressInputImages c net maxBytes targetBytes images =
      (images.filter (fun s => decide (s ≠ ""))).map
        (normalizeOne c net maxBytes targetBytes) := by
  induction images with
  | nil => rfl
  | cons img rest ih =>
    by_cases h : img = ""
    · subst h
      simp [normalizeAndCompressInputImages, ih]
    · simp [normalizeAndCompressInputImages, h, ih]

/-! Claim C3: size behaviour of the compression loop. -/

/-- C3 (counterexample): an over-budget entry (decoded size 5 over
`maxBytes = 4`) whose re-encoded candidates are all larger than the original
is returned with decoded size 9 — strictly larger than the original payload,
refuting "a payload no larger than the original". -/
theorem C3_counterexample_exceeds_original :
    4 < calculateBase64Size imgOver ∧
    calculateBase64Size imgOver <
      calculateBase64Size (normalizeOne codecBigJpeg netNone 4 3 imgOver) := by
  constructor <;> decide

/-- C3 (amended): byte-identity for every within-budget entry — an inline
entry whose decoded size is within `maxBytes` (conjunct 1), and a URL entry
whose probe reports a size within `maxBytes` (2), whose downloaded payload is
within `maxBytes` (3), or whose download fails (4) — all pass through
byte-identical.  For over-budget entries the result may exceed the original
size (see the counterexample), but: a GIF (5) or an input the codec cannot
decode (6) comes back as the original payload, an encode failure at any
ladder step immediately falls back to the original (7), a candidate meeting
`targetBytes` at any ladder step is returned immediately as a JPEG data URI
of decoded size at most `targetBytes` (8), every early exit of the ladder is
one of those two (9), and every compression result is either the original
payload or a re-encoded JPEG data URI (10). -/
theorem C3_amended_compression_bounds :
    (∀ (Img : Type) (c : Codec Img) (net : NetEnv) (maxBytes targetBytes : Int)
       (img : String), startsWithStr img "http" = false →
       calculateBase64Size img ≤ maxBytes →
       normalizeOne c net maxBytes targetBytes img = img) ∧
    (∀ (Img : Type) (c : Codec Img) (net : NetEnv) (maxBytes targetBytes : Int)
       (img : String) (n : Int), startsWithStr img "http" = true →
       net.contentLength img = some n → n ≤ maxBytes →
       normalizeOne c net maxBytes targetBytes img = img) ∧
    (∀ (Img : Type) (c : Codec Img) (net : NetEnv) (maxBytes targetBytes : Int)
       (img base64 mimeType : String), startsWithStr img "http" = true →
       net.download img = some (base64, mimeType) →
       calculateBase64Size (buildDataUri base64 mimeType) ≤ maxBytes →
       normalizeOne c net maxBytes targetBytes img = img) ∧
    (∀ (Img : Type) (c : Codec Img) (net : NetEnv) (maxBytes targetBytes : Int)
       (img : String), startsWithStr img "http" = true →
       net.download img = none →
       normalizeOne c net maxBytes targetBytes img = img) ∧
    (∀ (Img : Type) (c : Codec Img) (dataUri : String) (t : Int),
       extractMimeTypeFromDataUri dataUri = some "image/gif" →
       compressDataUriToTarget c dataUri t = dataUri) ∧
    (∀ (Img : Type) (c : Codec Img) (dataUri : String) (t : Int),
       c.decode dataUri = none →
       compressDataUriToTarget c dataUri t = dataUri) ∧
    (∀ (Img : Type) (c : Codec Img) (w : Img) (dataUri : String) (t : Int)
       (q : Nat) (qs : List Nat) (best : Option String),
       c.encodeJPEG w q = none →
       qualityLadder c w dataUri t (q :: qs) best = Sum.inl dataUri) ∧
    (∀ (Img : Type) (c : Codec Img) (w : Img) (dataUri : String) (t : Int)
       (q : Nat) (qs : List Nat) (best : Option String) (enc : String),
       c.encodeJPEG w q = some enc → calculateBase64Size enc ≤ t →
       qualityLadder c w dataUri t (q :: qs) best =
         Sum.inl (buildDataUri enc "image/jpeg") ∧
       calculateBase64Size (buildDataUri enc "image/jpeg") ≤ t) ∧
    (∀ (Img : Type) (c : Codec Img) (w : Img) (dataUri : String) (t : Int)
       (qs : List Nat) (best : Option String) (r : String),
       qualityLadder c w dataUri t qs best = Sum.inl r →
       r = dataUri ∨ calculateBase64Size r ≤ t) ∧
    (∀ (Img : Type) (c : Codec Img) (dataUri : String) (t : Int),
       compressDataUriToTarget c dataUri t = dataUri ∨
         ∃ b, compressDataUriToTarget c dataUri t = buildDataUri b "image/jpeg") := by
  refine ⟨?_, ?_, ?_, ?_, ?_, ?_, ?_, ?_, ?_, ?_⟩
  · intro Img c net maxBytes targetBytes img h1 h2
    unfold normalizeOne
    rw [h1]
    simp only [Bool.false_eq_true, if_false, if_pos h2]
  · intro Img c net maxBytes targetBytes img n h1 hn hle
    simp [normalizeOne, h1, hn, hle]
  · intro Img c net maxBytes targetBytes img base64 mimeType h1 hd hle
    cases hcl : net.contentLength img with
    | none => simp [normalizeOne, h1, hcl, hd, hle]
    | some n =>
      by_cases hn : n ≤ maxBytes
      · simp [normalizeOne, h1, hcl, hn]
      · simp [normalizeOne, h1, hcl, hn, hd, hle]
  · intro Img c net maxBytes targetBytes img h1 hd
    cases hcl : net.contentLength img with
    | none => simp [normalizeOne, h1, hcl, hd]
    | some n =>
      by_cases hn : n ≤ maxBytes
      · simp [normalizeOne, h1, hcl, hn]
      · simp [normalizeOne, h1, hcl, hn, hd]
  · intro Img c dataUri t h
    simp [compressDataUriToTarget, h]
  · intro Img c dataUri t h
    unfold compressDataUriToTarget
    by_cases hg : (extractMimeTypeFromDataUri dataUri).getD "image/png" = "image/gif"
    · rw [if_pos hg]
    · rw [if_neg hg]
      by_cases hs : calculateBase64Size dataUri ≤ t
      · rw [if_pos hs]
      · rw [if_neg hs, h]
  · intro Img c w dataUri t q qs best h
    rw [qualityLadder, h]
  · intro Img c w dataUri t q qs best enc h1 h2
    constructor
    · rw [qualityLadder, h1]
      simp [h2]
    · rw [calc_buildDataUri enc "image/jpeg" (by decide) (by decide)]
      exact h2
  · intro Img c w dataUri t qs best r h
    rcases qualityLadder_inl c w dataUri t qs best r h with hd | ⟨enc, he, hle⟩
    · exact Or.inl hd
    · refine Or.inr ?_
      rw [he, calc_buildDataUri enc "image/jpeg" (by decide) (by decide)]
      exact hle
  · intro Img c dataUri t
    exact compress_result_cases c dataUri t

/-- C3 witness: a concrete within-budget entry passes through
byte-identical. -/
theorem C3_amended_compression_bounds_witness :
    normalizeOne codecBigJpeg netNone 10 3 imgOver = imgOver :=
  C3_amended_compression_bounds.1 Unit codecBigJpeg netNone 10 3 imgOver
    (by decide) (by decide)

/-! Claim C10: compressed output format. -/

/-- C10: whenever the compression loop returns anything other than the
fallback original payload, the returned entry is a data URI with MIME type
`image/jpeg`, regardless of the input format. -/
theorem C10_reencoded_always_jpeg (Img : Type) (c : Codec Img) (dataUri : String)
    (t : Int) (h : compressDataUriToTarget c dataUri t ≠ dataUri) :
    (∃ b, compressDataUriToTarget c dataUri t = buildDataUri b "image/jpeg") ∧
    extractMimeTypeFromDataUri (compressDataUriToTarget c dataUri t) =
      some "image/jpeg" := by
  rcases compress_result_cases c dataUri t with hc | ⟨b, hb⟩
  · exact absurd hc h
  · refine ⟨⟨b, hb⟩, ?_⟩
    rw [hb]
    exact extractMime_buildDataUri b "image/jpeg" (by decide) (by decide)

/-- C10 witness: a concrete over-budget PNG input that gets re-encoded comes
back as an `image/jpeg` data URI. -/
theorem C10_reencoded_always_jpeg_witness :
    extractMimeTypeFromDataUri
      (compressDataUriToTarget codecBigJpeg (buildDataUri imgOver "image/png") 3) =
      some "image/jpeg" :=
  (C10_reencoded_always_jpeg Unit codecBigJpeg (buildDataUri imgOver "image/png") 3
    (by decide)).2

/-! Claim C5: classifier determinism and the rate-limit rules. -/

/-- C5 (counterexample): a body that contains `"rate limit"` but also a
credential-exhaustion keyword is classified `NO_AVAILABLE_KEY`, not
`RATE_LIMIT` — the no-available-key keyword group has higher precedence, so
"any body containing `rate limit` is classified rate_limit" fails. -/
theorem C5_counterexample_no_available_key_precedence :
    includesStr (lowerStr "rate limit: no available key") "rate limit" = true ∧
    identifyErrorType "rate limit: no available key" (some 500) ≠ ErrorType.RATE_LIMIT ∧
    identifyErrorType "rate limit: no available key" (some 500) =
      ErrorType.NO_AVAILABLE_KEY := by
  refine ⟨by decide, by decide, by decide⟩

/-- C5 (amended): classification is deterministic; a body containing
`"rate limit"` that matches no credential-exhaustion keyword is classified
`rate_limit` regardless of status code; and a 429 status whose body matches
no keyword group is classified `rate_limit`. -/
theorem C5_amended_classifier_properties :
    (∀ (t1 t2 : String) (s1 s2 : Option Nat), t1 = t2 → s1 = s2 →
       identifyErrorType t1 s1 = identifyErrorType t2 s2) ∧
    (∀ (t : String) (s : Option Nat),
       containsKeywords t ERROR_PATTERNS_noAvailableKey = false →
       includesStr (lowerStr t) "rate limit" = true →
       identifyErrorType t s = ErrorType.RATE_LIMIT) ∧
    (∀ t : String,
       containsKeywords t ERROR_PATTERNS_noAvailableKey = false →
       containsKeywords t ERROR_PATTERNS_rateLimit = false →
       containsKeywords t ERROR_PATTERNS_databaseError = false →
       containsKeywords t ERROR_PATTERNS_moderation = false →
       containsKeywords t ERROR_PATTERNS_timeout = false →
       containsKeywords t ERROR_PATTERNS_badRequest = false →
       identifyErrorType t (some 429) = ErrorType.RATE_LIMIT) := by
  refine ⟨?_, ?_, ?_⟩
  · intro t1 t2 s1 s2 ht hs
    rw [ht, hs]
  · intro t s h1 h2
    have hkw : lowerStr "rate limit" = "rate limit" := by decide
    have hrl : containsKeywords t ERROR_PATTERNS_rateLimit = true := by
      unfold containsKeywords ERROR_PATTERNS_rateLimit
      simp [hkw, h2]
    simp [identifyErrorType, h1, hrl]
  · intro t h1 h2 h3 h4 h5 h6
    simp [identifyErrorType, h1, h2, h3, h4, h5, h6]

/-- C5 witness: a body with `"rate limit"` and no exhaustion keyword is
`RATE_LIMIT` under a 500 status, and an unrelated body under 429 is
`RATE_LIMIT`. -/
theorem C5_amended_classifier_properties_witness :
    identifyErrorType "the rate limit was hit" (some 500) = ErrorType.RATE_LIMIT ∧
    identifyErrorType "hello there" (some 429) = ErrorType.RATE_LIMIT :=
  ⟨C5_amended_classifier_properties.2.1 "the rate limit was hit" (some 500)
      (by decide) (by decide),
   C5_amended_classifier_properties.2.2 "hello there" (by decide) (by decide)
      (by decide) (by decide) (by decide) (by decide)⟩

/-! Claim C6: only canned friendly messages reach the caller. -/

/-- C6: for every raw upstream error text, status code, provider name and
every possible behaviour of the sanitization pipeline, `parseErrorMessage`
returns one of the fixed canned messages of `FRIENDLY_MESSAGES`, selected by
the canonical kind and optionally tagged with the provider name — no part of
the raw upstream text occurs in the output. -/
theorem C6_canned_messages_only (sanitize : String → String) (errorText : String)
    (statusCode : Option Nat) (provider : Option String) :
    ∃ kind : ErrorType, parseErrorMessage sanitize errorText statusCode provider =
      withProviderTag provider (FRIENDLY_MESSAGES kind) :=
  ⟨identifyErrorType (sanitize errorText) statusCode, rfl⟩

/-! Helper lemmas about the ModelScope poll loop. -/

theorem tryTaskTypes_fst (env : MSEnv) (i : Nat) :
    ∀ (ts : List String) (e e' : Option String),
      (tryTaskTypes env i ts e).1 = (tryTaskTypes env i ts e').1 := by
  intro ts
  induction ts with
  | nil => intro e e'; rfl
  | cons t ts ih =>
    intro e e'
    rw [tryTaskTypes, tryTaskTypes]
    split
    · exact ih _ _
    · split
      · rfl
      · exact ih _ _

theorem msPollLoop_snd_le (env : MSEnv) :
    ∀ (fuel i streak : Nat) (lastErr : Option String),
      (msPollLoop env fuel i streak lastErr).2 ≤ i + fuel := by
  intro fuel
  induction fuel with
  | zero => intro i streak e; simp [msPollLoop]
  | succ fuel ih =>
    intro i streak e
    rw [msPollLoop]
    split
    · next lastErr' _ =>
      split
      · show i + 1 ≤ i + (fuel + 1)
        omega
      · have h := ih (i + 1) (streak + 1) lastErr'
        omega
    · next d lastErr' _ =>
      split
      · next s _ =>
        split
        · show i + 1 ≤ i + (fuel + 1)
          omega
        · split
          · show i + 1 ≤ i + (fuel + 1)
            omega
          · have h := ih (i + 1) 0 lastErr'
            omega
      · next _ =>
        have h := ih (i + 1) 0 lastErr'
        omega

theorem msPollLoop_timeout (env : MSEnv)
    (H1 : ∀ i, i < msMaxAttempts → terminalAtB env i = false)
    (H2 : ∀ k, k + 6 ≤ msMaxAttempts → ∃ j, j < 6 ∧ invalidAtB env (k + j) = false) :
    ∀ (fuel base streak : Nat) (lastErr : Option String),
      base + streak + fuel = msMaxAttempts → streak ≤ 5 →
      (∀ j, j < streak → invalidAtB env (base + j) = true) →
      msPollLoop env fuel (base + streak) streak lastErr = (msTimeoutResult, msMaxAttempts) := by
  intro fuel
  induction fuel with
  | zero =>
    intro base streak e hsum _ _
    rw [msPollLoop]
    have h : base + streak = msMaxAttempts := by omega
    rw [h]
  | succ fuel ih =>
    intro base streak e hsum hstreak hinv
    have hi : base + streak < msMaxAttempts := by omega
    have hfst : (tryTaskTypes env (base + streak) taskTypeOrder e).1 =
        attemptCheck env (base + streak) :=
      tryTaskTypes_fst env _ taskTypeOrder e none
    rw [msPollLoop]
    split
    · next lastErr' heq =>
      have hnone : attemptCheck env (base + streak) = none := by rw [← hfst, heq]
      have hinv_i : invalidAtB env (base + streak) = true := by
        unfold invalidAtB
        rw [hnone]
        rfl
      have hlt : ¬(streak + 1 ≥ 6) := by
        intro hge
        have h5 : streak = 5 := by omega
        subst h5
        rcases H2 base (by omega) with ⟨j, hj, hvalid⟩
        have hj_invalid : invalidAtB env (base + j) = true := by
          by_cases hj5 : j < 5
          · exact hinv j hj5
          · have : j = 5 := by omega
            rw [this]
            exact hinv_i
        rw [hj_invalid] at hvalid
        exact Bool.noConfusion hvalid
      rw [if_neg hlt]
      have hrec := ih base (streak + 1) lastErr' (by omega) (by omega) ?_
      · exact hrec
      · intro j hj
        by_cases hjs : j < streak
        · exact hinv j hjs
        · have : j = streak := by omega
          rw [this]
          exact hinv_i
    · next d lastErr' heq =>
      have hsome : attemptCheck env (base + streak) = some d := by rw [← hfst, heq]
      have hterm2 : (match jsGet d "task_status" with
          | Json.str s => decide (s = "SUCCEED") || decide (s = "FAILED")
          | _ => false) = false := by
        have h := H1 (base + streak) hi
        unfold terminalAtB at h
        rw [hsome] at h
        exact h
      split
      · next s hst =>
        rw [hst] at hterm2
        simp only [Bool.or_eq_false_iff, decide_eq_false_iff_not] at hterm2
        rw [if_neg hterm2.1, if_neg hterm2.2]
        exact ih (base + streak + 1) 0 lastErr' (by omega) (by omega)
          (fun j hj => absurd hj (Nat.not_lt_zero j))
      · next hst =>
        exact ih (base + streak + 1) 0 lastErr' (by omega) (by omega)
          (fun j hj => absurd hj (Nat.not_lt_zero j))

theorem msPollLoop_abort (env : MSEnv) :
    ∀ (n fuel i streak : Nat) (lastErr : Option String),
      1 ≤ n → streak + n = 6 → n ≤ fuel →
      (∀ j, j < n → invalidAtB env (i + j) = true) →
      ∃ e', msPollLoop env fuel i streak lastErr = (msStreakFailResult e', i + n) := by
  intro n
  induction n with
  | zero =>
    intro fuel i streak e h1
    exact absurd h1 (by omega)
  | succ n ih =>
    intro fuel i streak e _ hsum hfuel hinv
    obtain ⟨fuel', rfl⟩ : ∃ f, fuel = f + 1 := ⟨fuel - 1, by omega⟩
    have hfst : (tryTaskTypes env i taskTypeOrder e).1 = attemptCheck env i :=
      tryTaskTypes_fst env i taskTypeOrder e none
    have hnone : attemptCheck env i = none := by
      have h0 := hinv 0 (by omega)
      unfold invalidAtB at h0
      exact Option.isNone_iff_eq_none.mp h0
    rw [msPollLoop]
    split
    · next lastErr' heq =>
      by_cases h6 : streak + 1 ≥ 6
      · rw [if_pos h6]
        have hn0 : n = 0 := by omega
        subst hn0
        exact ⟨lastErr', rfl⟩
      · rw [if_neg h6]
        have hrec := ih fuel' (i + 1) (streak + 1) lastErr' (by omega) (by omega)
          (by omega) ?_
        · rcases hrec with ⟨e3, he3⟩
          refine ⟨e3, ?_⟩
          rw [he3]
          have harith : i + 1 + n = i + (n + 1) := by omega
          rw [harith]
        · intro j hj
          have := hinv (j + 1) (by omega)
          have harith : i + (j + 1) = i + 1 + j := by omega
          rw [harith] at this
          exact this
    · next d lastErr' heq =>
      exfalso
      have : attemptCheck env i = some d := by rw [← hfst, heq]
      rw [hnone] at this
      exact Option.noConfusion this

/-! Claim C7: the invalid-response streak. -/

/-- C7: a failed or unparseable poll is inconclusive but increments the
streak (below the threshold the loop just continues); any valid response
resets the streak to 0; when the streak reaches 6 the loop aborts as a
failure with a diagnostic; and six consecutive invalid polls from the start
abort the task after 6 polls, long before the 120-attempt maximum. -/
theorem C7_invalid_streak_behaviour :
    (∀ (env : MSEnv) (fuel i streak : Nat) (lastErr : Option String),
       (tryTaskTypes env i taskTypeOrder lastErr).1 = none → streak + 1 < 6 →
       msPollLoop env (fuel + 1) i streak lastErr =
         msPollLoop env fuel (i + 1) (streak + 1)
           (tryTaskTypes env i taskTypeOrder lastErr).2) ∧
    (∀ (env : MSEnv) (fuel i streak : Nat) (lastErr : Option String) (d : Json)
       (s : String), (tryTaskTypes env i taskTypeOrder lastErr).1 = some d →
       jsGet d "task_status" = Json.str s → s ≠ "SUCCEED" → s ≠ "FAILED" →
       msPollLoop env (fuel + 1) i streak lastErr =
         msPollLoop env fuel (i + 1) 0 (tryTaskTypes env i taskTypeOrder lastErr).2) ∧
    (∀ (env : MSEnv) (fuel i streak : Nat) (lastErr : Option String),
       (tryTaskTypes env i taskTypeOrder lastErr).1 = none → streak + 1 ≥ 6 →
       msPollLoop env (fuel + 1) i streak lastErr =
         (msStreakFailResult (tryTaskTypes env i taskTypeOrder lastErr).2, i + 1) ∧
       (msStreakFailResult (tryTaskTypes env i taskTypeOrder lastErr).2).success = false ∧
       ((msStreakFailResult (tryTaskTypes env i taskTypeOrder lastErr).2).error).isSome
         = true) ∧
    (∀ env : MSEnv, (∀ j, j < 6 → invalidAtB env j = true) →
       ∃ e', msGeneratePoll env = (msStreakFailResult e', 6) ∧
         (msStreakFailResult e').success = false ∧ 6 < msMaxAttempts) := by
  refine ⟨?_, ?_, ?_, ?_⟩
  · intro env fuel i streak lastErr h1 h2
    rw [msPollLoop]
    split
    · next l2 heq =>
      rw [if_neg (by omega : ¬streak + 1 ≥ 6), heq]
    · next d l2 heq =>
      rw [heq] at h1
      simp at h1
  · intro env fuel i streak lastErr d s h1 h2 h3 h4
    rw [msPollLoop]
    split
    · next l2 heq =>
      rw [heq] at h1
      simp at h1
    · next d' l2 heq =>
      rw [heq] at h1
      simp only [Option.some.injEq] at h1
      subst h1
      split
      · next s' hst =>
        rw [h2] at hst
        simp only [Json.str.injEq] at hst
        subst hst
        rw [if_neg h3, if_neg h4, heq]
      · next x hfun =>
        exact absurd h2 (hfun s)
  · intro env fuel i streak lastErr h1 h2
    rw [msPollLoop]
    split
    · next l2 heq =>
      rw [if_pos h2, heq]
      exact ⟨rfl, rfl, rfl⟩
    · next d l2 heq =>
      rw [heq] at h1
      simp at h1
  · intro env hinv
    rcases msPollLoop_abort env 6 msMaxAttempts 0 0 none (by omega) (by omega) (by decide)
      (fun j hj => by rw [Nat.zero_add]; exact hinv j hj) with ⟨e', he⟩
    rw [show (0 : Nat) + 6 = 6 by rfl] at he
    exact ⟨e', he, rfl, by decide⟩

/-- C7 witness: with every poll failing at the HTTP level, the loop aborts
after exactly 6 polls. -/
theorem C7_invalid_streak_behaviour_witness :
    ∃ e', msGeneratePoll msEnvAllInvalid = (msStreakFailResult e', 6) ∧
      (msStreakFailResult e').success = false ∧ 6 < msMaxAttempts :=
  C7_invalid_streak_behaviour.2.2.2 msEnvAllInvalid (fun _ _ => rfl)

/-! Claim C8: bounded polling and the timeout result. -/

/-- C8: the poll loop always performs at most 120 polls; and when no poll
observes a terminal status and the invalid-response streak never reaches the
threshold (every window of six consecutive attempts contains a valid
response), the loop exits after exactly 120 polls with the timeout failure
result. -/
theorem C8_poll_termination_timeout :
    (∀ env : MSEnv, (msGeneratePoll env).2 ≤ msMaxAttempts) ∧
    (∀ env : MSEnv,
       (∀ i, i < msMaxAttempts → terminalAtB env i = false) →
       (∀ k, k + 6 ≤ msMaxAttempts → ∃ j, j < 6 ∧ invalidAtB env (k + j) = false) →
       msGeneratePoll env = (msTimeoutResult, msMaxAttempts)) ∧
    msTimeoutResult.success = false ∧
    msTimeoutResult.error = some "ModelScope Task Timeout" := by
  refine ⟨?_, ?_, rfl, rfl⟩
  · intro env
    have h := msPollLoop_snd_le env msMaxAttempts 0 0 none
    simpa [msGeneratePoll] using h
  · intro env H1 H2
    have h := msPollLoop_timeout env H1 H2 msMaxAttempts 0 0 none (by omega) (by omega)
      (fun j hj => absurd hj (Nat.not_lt_zero j))
    exact h

/-- C8 witness: a script that always returns a valid `PENDING` status runs
the full 120 polls and times out. -/
theorem C8_poll_termination_timeout_witness :
    msGeneratePoll msEnvAllPending = (msTimeoutResult, msMaxAttempts) :=
  C8_poll_termination_timeout.2.1 msEnvAllPending (fun i _ => rfl)
    (fun k _ => ⟨0, by omega, rfl⟩)

/-! Claim C1: `SUCCEED` with no recognizable output. -/

/-- C1 (counterexample): when the first poll returns terminal `SUCCEED` with
no recognizable output field, `generate` returns `success = true` with an
empty image list — not a failure result as the claim states. -/
theorem C1_counterexample_succeed_without_output :
    (msGeneratePoll msEnvSucceedNoOutput).1.success = true ∧
    (msGeneratePoll msEnvSucceedNoOutput).1.images = some [] :=
  ⟨rfl, rfl⟩

/-- C1 (amended): when a poll observes terminal `SUCCEED` but neither
`output_images` nor `outputs.output_images` yields a non-empty string, the
poller returns a success result with an empty image list
(`success = true`, `images = []`), not a failure. -/
theorem C1_amended_succeed_empty_images (env : MSEnv) (fuel i streak : Nat)
    (lastErr : Option String) (d : Json)
    (h1 : (tryTaskTypes env i taskTypeOrder lastErr).1 = some d)
    (h2 : jsGet d "task_status" = Json.str "SUCCEED")
    (h3 : extractOutputImages d = []) :
    msPollLoop env (fuel + 1) i streak lastErr = (msSucceedResult env d, i + 1) ∧
    msSucceedResult env d = { success := true, images := some [] } := by
  constructor
  · rw [msPollLoop]
    split
    · next l2 heq =>
      rw [heq] at h1
      simp at h1
    · next d' l2 heq =>
      rw [heq] at h1
      simp only [Option.some.injEq] at h1
      subst h1
      split
      · next s hst =>
        rw [h2] at hst
        simp only [Json.str.injEq] at hst
        subst hst
        rw [if_pos rfl]
      · next x hfun => exact absurd h2 (hfun "SUCCEED")
  · unfold msSucceedResult
    rw [h3]
    rfl

/-- C1 witness: the concrete all-`SUCCEED`-no-output script hits the amended
behaviour on its first poll. -/
theorem C1_amended_succeed_empty_images_witness :
    msPollLoop msEnvSucceedNoOutput (119 + 1) 0 0 none =
      (msSucceedResult msEnvSucceedNoOutput msSucceedNoOutputBody, 0 + 1) ∧
    msSucceedResult msEnvSucceedNoOutput msSucceedNoOutputBody =
      { success := true, images := some [] } :=
  C1_amended_succeed_empty_images msEnvSucceedNoOutput 119 0 0 none
    msSucceedNoOutputBody rfl rfl rfl

/-! Claim C9: results populate exactly one of images / error. -/

theorem msPollLoop_exclusive (env : MSEnv) :
    ∀ (fuel i streak : Nat) (lastErr : Option String),
      exclusiveResult (msPollLoop env fuel i streak lastErr).1 := by
  intro fuel
  induction fuel with
  | zero => intro i s e; exact Or.inr ⟨rfl, rfl, rfl⟩
  | succ fuel ih =>
    intro i s e
    rw [msPollLoop]
    split
    · next l2 _ =>
      split
      · exact Or.inr ⟨rfl, rfl, rfl⟩
      · exact ih _ _ _
    · next d l2 _ =>
      split
      · next s' _ =>
        split
        · exact Or.inl ⟨rfl, rfl, rfl⟩
        · split
          · exact Or.inr ⟨rfl, rfl, rfl⟩
          · exact ih _ _ _
      · exact ih _ _ _

/-- C9: every `GenerationResult` returned by the modelled provider generate
operations (ModelScope, Doubao) populates exactly one of `images` / `error`:
successes carry an image list and no error, failures carry an error and no
images. -/
theorem C9_result_exclusivity :
    (∀ (env : MSEnv) (request : ImageGenerationRequest),
       exclusiveResult (msGenerate env request)) ∧
    (∀ (env : DoubaoEnv) (request : ImageGenerationRequest)
       (selectedModel defaultModel : String),
       exclusiveResult (doubaoGenerate env request selectedModel defaultModel)) := by
  constructor
  · intro env request
    unfold msGenerate
    split
    · exact Or.inr ⟨rfl, rfl, rfl⟩
    · split
      · exact Or.inr ⟨rfl, rfl, rfl⟩
      · split
        · exact Or.inr ⟨rfl, rfl, rfl⟩
        · exact msPollLoop_exclusive env _ _ _ _
  · intro env request selectedModel defaultModel
    unfold doubaoGenerate
    split
    · exact Or.inr ⟨rfl, rfl, rfl⟩
    · exact Or.inr ⟨rfl, rfl, rfl⟩
    · split
      · exact Or.inl ⟨rfl, rfl, rfl⟩
      · split
        · exact Or.inr ⟨rfl, rfl, rfl⟩
        · exact Or.inl ⟨rfl, rfl, rfl⟩

/-! Claim C4: the bounded attempt loop of `handleImagesGenerations`. -/

theorem attemptLoopAux_snd_le (env : OrchEnv) (relayKey : String) :
    ∀ (fuel attempts : Nat) (lastError : Option String) (invocations : Nat),
      (attemptLoopAux true env relayKey fuel attempts lastError invocations).2 ≤
        invocations + fuel := by
  intro fuel
  induction fuel with
  | zero => intro attempts e inv; simp [attemptLoopAux]
  | succ fuel ih =>
    intro attempts e inv
    rw [attemptLoopAux]
    rw [if_pos rfl]
    split
    · split
      · show inv ≤ inv + (fuel + 1)
        omega
      · show inv ≤ inv + (fuel + 1)
        omega
    · next poolKey _ =>
      split
      · show inv + 1 ≤ inv + (fuel + 1)
        omega
      · have h := ih (attempts + 1)
          (some ((env.generate attempts poolKey).error.getD "Unknown error")) (inv + 1)
        omega

/-- C4: the loop performs exactly 1 provider invocation in relay mode and at
most 3 in backend mode; in backend mode an empty pool on the first attempt
returns the pool-exhausted error with no provider invocation, and an empty
pool on the retry after a failed first attempt stops the loop and surfaces
the last classified error. -/
theorem C4_attempt_loop_bounds :
    (∀ (env : OrchEnv) (key : String), (runAttemptLoop false env key).2 = 1) ∧
    (∀ (env : OrchEnv) (key : String), (runAttemptLoop true env key).2 ≤ 3) ∧
    (∀ (env : OrchEnv) (key : String), env.pool 0 = none →
       runAttemptLoop true env key = (LoopOutcome.poolExhausted, 0)) ∧
    (∀ (env : OrchEnv) (key poolKey : String),
       env.pool 0 = some poolKey → (env.generate 0 poolKey).success = false →
       env.pool 1 = none →
       runAttemptLoop true env key =
         (LoopOutcome.thrown ((env.generate 0 poolKey).error.getD "Unknown error"), 1)) := by
  refine ⟨?_, ?_, ?_, ?_⟩
  · intro env key
    by_cases h : (env.generate 0 key).success = true
    · simp [runAttemptLoop, attemptLoopAux, h]
    · simp [runAttemptLoop, attemptLoopAux, h]
  · intro env key
    have h := attemptLoopAux_snd_le env key 3 0 none 0
    simpa [runAttemptLoop] using h
  · intro env key h
    simp [runAttemptLoop, attemptLoopAux, h]
  · intro env key poolKey h1 h2 h3
    simp [runAttemptLoop, attemptLoopAux, h1, h2, h3]

/-- C4 witness: concrete pools exercising the pool-exhausted path and the
stop-on-retry path. -/
theorem C4_attempt_loop_bounds_witness :
    runAttemptLoop true orchEnvEmptyPool "caller-key" = (LoopOutcome.poolExhausted, 0) ∧
    runAttemptLoop true orchEnvOneKey "caller-key" =
      (LoopOutcome.thrown ((orchEnvOneKey.generate 0 "key-a").error.getD "Unknown error"),
        1) :=
  ⟨C4_attempt_loop_bounds.2.2.1 orchEnvEmptyPool "caller-key" rfl,
   C4_attempt_loop_bounds.2.2.2 orchEnvOneKey "caller-key" "key-a" rfl rfl rfl⟩

end ImgRouter
